import Mathlib

/-!
Verification development for the Fandom velocity scraper
(`src/scraper-actor/main.py`).

The embedding is a direct shallow transcription of `main` in `main.py`:

* JSON-like values (`JVal`) stand for the Python values flowing through the
  job (the parsed actor input, the attribute mapping returned by the
  platform client, the produced records).
* The platform client (`instagrapi.Client`) is modelled as a record of
  pure functions returning `Except String`: `userInfoByUsername` stands
  for `cl.user_info_by_username(u).dict()` and `loginBySessionId` for
  `cl.login_by_sessionid(sid)`.  A `.error e` result stands for the call
  raising an exception whose `str` is `e`.
* Observable side effects (the dataset push, the 2-second `time.sleep`,
  the authentication call, the per-item diagnostics) are recorded as an
  explicit `Event` trace.
* The clock `time.gmtime()` is a parameter: item number `i` of the loop
  reads the time `clock i`.
-/

/-- JSON-like values, standing for the Python values produced by
`json.load`, by `user_info.dict()` and stored in records. -/
inductive JVal where
  | jStr (s : String)
  | jInt (n : Int)
  | jBool (b : Bool)
  | jNull
  | jList (xs : List JVal)
  | jObj (fields : List (String × JVal))
deriving Repr

/-- A record / Python dict: an association list of fields. -/
abbrev Record := List (String × JVal)

/-- Python `d[k] = v` on a dict: overwrite in place when the key exists
(keeping its position), otherwise append the new field at the end. -/
def dictSet : Record → String → JVal → Record
  | [], k, v => [(k, v)]
  | p :: d, k, v => if p.1 = k then (k, v) :: d else p :: dictSet d k v

/-- Python `d.get(k)` on a dict: the value of the field named `k`. -/
def dictGet : Record → String → Option JVal
  | [], _ => none
  | p :: d, k => if p.1 = k then some p.2 else dictGet d k

/-- Broken-down UTC time, as returned by `time.gmtime()`. -/
structure DateTime where
  year : Nat
  month : Nat
  day : Nat
  hour : Nat
  minute : Nat
  second : Nat
deriving DecidableEq, Repr

/-- Field ranges guaranteed for `time.gmtime()` output (the year bounds
restrict to the four-digit era, which covers every reachable wall-clock
time; seconds may be 60 for a leap second). -/
def DateTime.valid (t : DateTime) : Bool :=
  1000 ≤ t.year && t.year ≤ 9999 &&
  1 ≤ t.month && t.month ≤ 12 &&
  1 ≤ t.day && t.day ≤ 31 &&
  t.hour ≤ 23 && t.minute ≤ 59 && t.second ≤ 60

/-- The decimal digit character for `d` (meaningful for `d < 10`). -/
def digitChar (d : Nat) : Char := Char.ofNat (48 + d)

/-- `strftime` two-digit zero-padded field (`%m`, `%d`, `%H`, `%M`, `%S`);
faithful for the in-range values `time.gmtime` produces (at most 99). -/
def pad2 (n : Nat) : List Char :=
  [digitChar (n / 10 % 10), digitChar (n % 10)]

/-- Digits of `n` in base ten, with structural fuel (any fuel of at least
the digit count gives the numeral; a number never has more digits than
its own value, so `natDecimal` below passes `n` itself). -/
def natDecimalAux : Nat → Nat → List Char
  | 0, n => [digitChar n]
  | fuel + 1, n =>
      if n < 10 then [digitChar n]
      else natDecimalAux fuel (n / 10) ++ [digitChar (n % 10)]

/-- `strftime` `%Y`: the year as an unpadded decimal numeral. -/
def natDecimal (n : Nat) : List Char := natDecimalAux n n

/-- `time.strftime("%Y-%m-%dT%H:%M:%SZ", t)`. -/
def formatTimestamp (t : DateTime) : String :=
  String.mk (natDecimal t.year ++ '-' :: pad2 t.month ++ '-' :: pad2 t.day
    ++ 'T' :: pad2 t.hour ++ ':' :: pad2 t.minute ++ ':' :: pad2 t.second
    ++ ['Z'])

/-- Whether `c` is a decimal digit character. -/
def isDigitChar (c : Char) : Bool := '0' ≤ c && c ≤ '9'

/-- Whether a string matches the literal pattern `YYYY-MM-DDTHH:MM:SSZ`:
exactly twenty characters, digits in the numeric positions and the fixed
separators in between. -/
def matchesTimestampPattern (s : String) : Bool :=
  match s.toList with
  | [y1, y2, y3, y4, s1, m1, m2, s2, d1, d2, s3,
     h1, h2, s4, n1, n2, s5, c1, c2, s6] =>
      isDigitChar y1 && isDigitChar y2 && isDigitChar y3 && isDigitChar y4 &&
      s1 = '-' && isDigitChar m1 && isDigitChar m2 && s2 = '-' &&
      isDigitChar d1 && isDigitChar d2 && s3 = 'T' &&
      isDigitChar h1 && isDigitChar h2 && s4 = ':' &&
      isDigitChar n1 && isDigitChar n2 && s5 = ':' &&
      isDigitChar c1 && isDigitChar c2 && s6 = 'Z'
  | _ => false

/-- The opaque platform client capability (`instagrapi.Client`), as pure
functions: an `.error e` result stands for the call raising an exception
whose string form is `e`. -/
structure Client where
  userInfoByUsername : String → Except String Record
  loginBySessionId : String → Except String Unit

/-- Observable side effects of a run, in order of occurrence. -/
inductive Event where
  /-- `cl.login_by_sessionid(cred)` was invoked. -/
  | auth (cred : String)
  /-- `cl.user_info_by_username(username)` was invoked. -/
  | fetch (username : String)
  /-- The `Fetching followers for ...` diagnostic of `followers` mode. -/
  | followersNote (username : String)
  /-- The `Error scraping ...` diagnostic of the `except` handler. -/
  | errNote (username : String)
  /-- The `Pushed record for ...` dataset-sink push. -/
  | push (username : String)
  /-- `time.sleep(2)`, the fixed safety delay. -/
  | sleep2
deriving DecidableEq, Repr

/-- One iteration of the scrape loop for `username`: the produced record
(the one appended to `results`) together with the event trace of the
iteration.  Transcribed from the loop body of `main`: inside the `try`,
`data = {}`; in `enrich` or `followers` mode the profile is fetched,
normalized with `platform` and `scrapedAt`, and in `followers` mode the
follower diagnostic is printed (the follower fetch itself is commented
out); then the record is appended, pushed when the dataset id is set, and
the 2-second delay runs.  If the fetch raises, the `except` handler
appends the two-field error record instead and the iteration ends there. -/
def processItem (cl : Client) (mode : String) (dataset : Bool)
    (now : DateTime) (username : String) : Record × List Event :=
  if mode = "enrich" ∨ mode = "followers" then
    match cl.userInfoByUsername username with
    | .ok attrs =>
        let data := dictSet (dictSet attrs "platform" (.jStr "instagram"))
          "scrapedAt" (.jStr (formatTimestamp now))
        (data,
          Event.fetch username ::
            ((if mode = "followers" then [Event.followersNote username] else [])
              ++ (if dataset then [Event.push username] else [])
              ++ [Event.sleep2]))
    | .error e =>
        ([("username", .jStr username), ("error", .jStr e)],
          [Event.fetch username, Event.errNote username])
  else
    ([], (if dataset then [Event.push username] else []) ++ [Event.sleep2])

/-- The scrape loop of `main` over the target list: the accumulated
`results` list and the concatenated event trace.  Item number `i` reads
the clock at `i`. -/
def runLoop (cl : Client) (mode : String) (dataset : Bool)
    (clock : Nat → DateTime) : List String → List Record × List Event
  | [] => ([], [])
  | u :: rest =>
      let pr := processItem cl mode dataset (clock 0) u
      let tail := runLoop cl mode dataset (fun n => clock (n + 1)) rest
      (pr.1 :: tail.1, pr.2 ++ tail.2)

/-- The resolved job configuration extracted from the actor input. -/
structure JobConfig where
  targets : List String
  mode : String
  sessionId : Option String
deriving DecidableEq, Repr

/-- Python string truthiness of an optional string: `None` and the empty
string are falsy. -/
def truthy : Option String → Bool
  | none => false
  | some s => s ≠ ""

/-- Python `a or b` on optional strings: `a` when truthy, else `b`. -/
def pyOr (a b : Option String) : Option String :=
  if truthy a then a else b

/-- The whole job after configuration resolution, transcribed from `main`:
resolve `session_id` as `actor_input.get('session_id') or
os.environ.get('IG_SESSION_ID')`; when truthy, call `login_by_sessionid`
(an exception there is not caught and aborts the job, modelled as an
`.error` result); then run the scrape loop.  `envSession` is the
`IG_SESSION_ID` environment variable and `dataset` whether
`APIFY_DEFAULT_DATASET_ID` is set.  The returned trace covers what
actually executed, so a failing authentication still records its `auth`
event. -/
def runJob (cl : Client) (cfg : JobConfig) (envSession : Option String)
    (dataset : Bool) (clock : Nat → DateTime) :
    Except String (List Record) × List Event :=
  match pyOr cfg.sessionId envSession with
  | some sid =>
      if sid ≠ "" then
        match cl.loginBySessionId sid with
        | .ok _ =>
            let r := runLoop cl cfg.mode dataset clock cfg.targets
            (.ok r.1, Event.auth sid :: r.2)
        | .error e => (.error e, [Event.auth sid])
      else
        let r := runLoop cl cfg.mode dataset clock cfg.targets
        (.ok r.1, r.2)
  | none =>
      let r := runLoop cl cfg.mode dataset clock cfg.targets
      (.ok r.1, r.2)

/-- Python `actor_input.get(k)` for the parsed input: field lookup on a
JSON object (`main` only ever reaches this call with a dict input; on any
other value the Python program would raise at the `.get` call). -/
def jGet : JVal → String → Option JVal
  | .jObj fields, k => dictGet fields k
  | _, _ => none

/-- Configuration resolution of `main`: `actor_input = {}`; inside the
`try`, use the local input file when it exists (parsing it), otherwise
the `APIFY_INPUT` environment string when truthy (parsing it); any
exception is caught, prints a warning and leaves `actor_input` empty.
`parse` stands for `json.load`/`json.loads`; the returned flag records
whether the warning diagnostic was printed. -/
def resolveActorInput (parse : String → Except String JVal)
    (fileContent envInput : Option String) : JVal × Bool :=
  match fileContent with
  | some content =>
      match parse content with
      | .ok v => (v, false)
      | .error _ => (JVal.jObj [], true)
  | none =>
      match envInput with
      | some s =>
          if s ≠ "" then
            match parse s with
            | .ok v => (v, false)
            | .error _ => (JVal.jObj [], true)
          else (JVal.jObj [], false)
      | none => (JVal.jObj [], false)

/-- Extraction of the job configuration from the parsed actor input:
`usernames` defaults to the empty list, `mode` defaults to `enrich`,
`session_id` to absent (a JSON `null` credential is falsy in the `or`
chain exactly like an absent one). -/
def extractConfig (v : JVal) : JobConfig :=
  { targets :=
      match jGet v "usernames" with
      | some (.jList xs) =>
          xs.filterMap (fun x => match x with | .jStr s => some s | _ => none)
      | _ => []
    mode :=
      match jGet v "mode" with
      | some (.jStr s) => s
      | _ => "enrich"
    sessionId :=
      match jGet v "session_id" with
      | some (.jStr s) => some s
      | _ => none }

/-- Delete the `scrapedAt` field of a record (for comparing runs modulo
the clock). -/
def stripScrapedAt (r : Record) : Record :=
  r.filter (fun p => p.1 ≠ "scrapedAt")

/-- Whether an event is the authentication call. -/
def isAuth : Event → Bool
  | .auth _ => true
  | _ => false

/-- Whether an event is a profile-fetch call. -/
def isFetch : Event → Bool
  | .fetch _ => true
  | _ => false

/-- Whether an event is a dataset push. -/
def isPush : Event → Bool
  | .push _ => true
  | _ => false

/-- Whether an event is the fixed safety delay. -/
def isSleep : Event → Bool
  | .sleep2 => true
  | _ => false

/-- Whether an event is the `followers`-mode diagnostic. -/
def isFollowersNote : Event → Bool
  | .followersNote _ => true
  | _ => false

/-- Whether the loop iteration for `u` takes the `except` path. -/
def itemFails (cl : Client) (mode : String) (u : String) : Bool :=
  if mode = "enrich" ∨ mode = "followers" then
    match cl.userInfoByUsername u with
    | .ok _ => false
    | .error _ => true
  else false

theorem dictGet_dictSet_self (d : Record) (k : String) (v : JVal) :
    dictGet (dictSet d k v) k = some v := by
  induction d with
  | nil => simp [dictSet, dictGet]
  | cons p d ih =>
      by_cases hp : p.1 = k
      · simp [dictSet, dictGet, hp]
      · simp [dictSet, dictGet, hp, ih]

theorem dictGet_dictSet_ne (d : Record) (k k' : String) (v : JVal)
    (h : k' ≠ k) : dictGet (dictSet d k v) k' = dictGet d k' := by
  induction d with
  | nil => simp [dictSet, dictGet, Ne.symm h]
  | cons p d ih =>
      by_cases hp : p.1 = k
      · simp [dictSet, dictGet, hp, Ne.symm h]
      · simp [dictSet, dictGet, hp, ih]

theorem filter_ne_dictSet (d : Record) (k : String) (v : JVal) :
    (dictSet d k v).filter (fun p => p.1 ≠ k) = d.filter (fun p => p.1 ≠ k) := by
  induction d with
  | nil => simp [dictSet]
  | cons p d ih =>
      by_cases hp : p.1 = k
      · simp [dictSet, hp]
      · simp only [dictSet, if_neg hp, List.filter_cons, ih]

theorem stripScrapedAt_dictSet (d : Record) (v : JVal) :
    stripScrapedAt (dictSet d "scrapedAt" v) = stripScrapedAt d :=
  filter_ne_dictSet d "scrapedAt" v

theorem runLoop_fst_length (cl : Client) (mode : String) (ds : Bool) :
    ∀ (us : List String) (clock : Nat → DateTime),
      (runLoop cl mode ds clock us).1.length = us.length := by
  intro us
  induction us with
  | nil => intro clock; rfl
  | cons u rest ih => intro clock; simp [runLoop, ih]

theorem runLoop_fst_get? (cl : Client) (mode : String) (ds : Bool) :
    ∀ (us : List String) (clock : Nat → DateTime) (i : Nat),
      (runLoop cl mode ds clock us).1.get? i
        = (us.get? i).map (fun u => (processItem cl mode ds (clock i) u).1) := by
  intro us
  induction us with
  | nil => intro clock i; simp [runLoop]
  | cons u rest ih =>
      intro clock i
      cases i with
      | zero => simp [runLoop]
      | succ n => simpa [runLoop] using ih (fun m => clock (m + 1)) n

theorem processItem_countP_auth (cl : Client) (mode : String) (ds : Bool)
    (now : DateTime) (u : String) :
    (processItem cl mode ds now u).2.countP isAuth = 0 := by
  unfold processItem
  by_cases hm : mode = "enrich" ∨ mode = "followers"
  · rw [if_pos hm]
    cases hcall : cl.userInfoByUsername u with
    | ok attrs =>
        by_cases hf : mode = "followers" <;> by_cases hd : ds <;>
          simp [hf, hd, isAuth, List.countP_cons, List.countP_append]
    | error e => simp [isAuth, List.countP_cons]
  · rw [if_neg hm]
    by_cases hd : ds <;> simp [hd, isAuth, List.countP_cons, List.countP_append]

theorem runLoop_countP_auth (cl : Client) (mode : String) (ds : Bool) :
    ∀ (us : List String) (clock : Nat → DateTime),
      (runLoop cl mode ds clock us).2.countP isAuth = 0 := by
  intro us
  induction us with
  | nil => intro clock; rfl
  | cons u rest ih =>
      intro clock
      simp [runLoop, List.countP_append, processItem_countP_auth, ih]

theorem isDigitChar_digitChar (d : Nat) (hd : d < 10) :
    isDigitChar (digitChar d) = true := by
  interval_cases d <;> decide

theorem isDigitChar_digitChar_mod (x : Nat) :
    isDigitChar (digitChar (x % 10)) = true :=
  isDigitChar_digitChar (x % 10) (Nat.mod_lt x (by norm_num))

theorem natDecimalAux_step (fuel n : Nat) (h : ¬ n < 10) :
    natDecimalAux (fuel + 1) n
      = natDecimalAux fuel (n / 10) ++ [digitChar (n % 10)] := by
  simp [natDecimalAux, h]

theorem natDecimalAux_base (fuel n : Nat) (h : n < 10) :
    natDecimalAux (fuel + 1) n = [digitChar n] := by
  simp [natDecimalAux, h]

theorem natDecimalAux_four (fuel n : Nat) (hf : 4 ≤ fuel)
    (h1 : 1000 ≤ n) (h2 : n ≤ 9999) :
    natDecimalAux fuel n
      = [digitChar (n / 1000 % 10), digitChar (n / 100 % 10),
         digitChar (n / 10 % 10), digitChar (n % 10)] := by
  obtain ⟨f, rfl⟩ : ∃ f, fuel = f + 4 := ⟨fuel - 4, by omega⟩
  have e10 : n / 10 / 10 = n / 100 := by omega
  have e100 : n / 100 / 10 = n / 1000 := by omega
  have e1000 : n / 1000 % 10 = n / 1000 := Nat.mod_eq_of_lt (by omega)
  show natDecimalAux (f + 3 + 1) n = _
  rw [natDecimalAux_step (f + 3) n (by omega),
    natDecimalAux_step (f + 2) (n / 10) (by omega), e10,
    natDecimalAux_step (f + 1) (n / 100) (by omega), e100,
    natDecimalAux_base f (n / 1000) (by omega), ← e1000]
  simp

theorem natDecimal_four (n : Nat) (h1 : 1000 ≤ n) (h2 : n ≤ 9999) :
    natDecimal n = [digitChar (n / 1000 % 10), digitChar (n / 100 % 10),
      digitChar (n / 10 % 10), digitChar (n % 10)] :=
  natDecimalAux_four n n (by omega) h1 h2

theorem formatTimestamp_matches (t : DateTime) (h : t.valid = true) :
    matchesTimestampPattern (formatTimestamp t) = true := by
  unfold DateTime.valid at h
  simp only [Bool.and_eq_true, decide_eq_true_eq] at h
  unfold formatTimestamp pad2
  rw [natDecimal_four t.year (by omega) (by omega)]
  simp [matchesTimestampPattern, String.toList, isDigitChar_digitChar_mod]

theorem processItem_of_fail (cl : Client) (mode : String) (ds : Bool)
    (now : DateTime) (u : String) (h : itemFails cl mode u = true) :
    ∃ e, cl.userInfoByUsername u = .error e ∧
      processItem cl mode ds now u
        = ([("username", .jStr u), ("error", .jStr e)],
           [Event.fetch u, Event.errNote u]) := by
  unfold itemFails at h
  by_cases hm : mode = "enrich" ∨ mode = "followers"
  · rw [if_pos hm] at h
    cases hc : cl.userInfoByUsername u with
    | ok attrs => rw [hc] at h; simp at h
    | error e =>
        refine ⟨e, rfl, ?_⟩
        unfold processItem
        rw [if_pos hm, hc]
  · rw [if_neg hm] at h
    simp at h

theorem processItem_getLast_of_not_fail (cl : Client) (mode : String)
    (ds : Bool) (now : DateTime) (u : String)
    (h : itemFails cl mode u = false) :
    (processItem cl mode ds now u).2.getLast? = some Event.sleep2 := by
  unfold itemFails at h
  unfold processItem
  by_cases hm : mode = "enrich" ∨ mode = "followers"
  · rw [if_pos hm] at h ⊢
    cases hc : cl.userInfoByUsername u with
    | ok attrs =>
        by_cases hf : mode = "followers" <;> by_cases hd : ds <;>
          simp [hf, hd]
    | error e => rw [hc] at h; simp at h
  · rw [if_neg hm]
    by_cases hd : ds <;> simp [hd]

theorem processItem_countP_sleep (cl : Client) (mode : String) (ds : Bool)
    (now : DateTime) (u : String) :
    (processItem cl mode ds now u).2.countP isSleep
      = if itemFails cl mode u then 0 else 1 := by
  unfold processItem itemFails
  by_cases hm : mode = "enrich" ∨ mode = "followers"
  · rw [if_pos hm, if_pos hm]
    cases hc : cl.userInfoByUsername u with
    | ok attrs =>
        by_cases hf : mode = "followers" <;> by_cases hd : ds <;>
          simp [hf, hd, isSleep, List.countP_cons, List.countP_append]
    | error e => simp [isSleep, List.countP_cons]
  · rw [if_neg hm, if_neg hm]
    by_cases hd : ds <;>
      simp [hd, isSleep, List.countP_cons, List.countP_append]

theorem processItem_countP_push (cl : Client) (mode : String) (ds : Bool)
    (now : DateTime) (u : String) :
    (processItem cl mode ds now u).2.countP isPush
      = if itemFails cl mode u then 0 else (if ds then 1 else 0) := by
  unfold processItem itemFails
  by_cases hm : mode = "enrich" ∨ mode = "followers"
  · rw [if_pos hm, if_pos hm]
    cases hc : cl.userInfoByUsername u with
    | ok attrs =>
        by_cases hf : mode = "followers" <;> by_cases hd : ds <;>
          simp [hf, hd, isPush, List.countP_cons, List.countP_append]
    | error e => simp [isPush, List.countP_cons]
  · rw [if_neg hm, if_neg hm]
    by_cases hd : ds <;>
      simp [hd, isPush, List.countP_cons, List.countP_append]

theorem runLoop_countP_sleep (cl : Client) (mode : String) (ds : Bool) :
    ∀ (us : List String) (clock : Nat → DateTime),
      (runLoop cl mode ds clock us).2.countP isSleep
        = us.countP (fun u => !itemFails cl mode u) := by
  intro us
  induction us with
  | nil => intro clock; rfl
  | cons u rest ih =>
      intro clock
      simp only [runLoop, List.countP_append, List.countP_cons,
        ih (fun m => clock (m + 1)), processItem_countP_sleep]
      by_cases hf : itemFails cl mode u <;> simp [hf] <;> omega

theorem runLoop_countP_push (cl : Client) (mode : String) (ds : Bool) :
    ∀ (us : List String) (clock : Nat → DateTime),
      (runLoop cl mode ds clock us).2.countP isPush
        = if ds then us.countP (fun u => !itemFails cl mode u) else 0 := by
  intro us
  induction us with
  | nil => intro clock; by_cases hd : ds <;> simp [hd, runLoop]
  | cons u rest ih =>
      intro clock
      simp only [runLoop, List.countP_append, List.countP_cons,
        ih (fun m => clock (m + 1)), processItem_countP_push]
      by_cases hf : itemFails cl mode u <;> by_cases hd : ds <;>
        simp [hf, hd] <;> omega

theorem processItem_modulo_clock (cl : Client) (mode : String) (ds : Bool)
    (t1 t2 : DateTime) (u : String) :
    stripScrapedAt (processItem cl mode ds t1 u).1
        = stripScrapedAt (processItem cl mode ds t2 u).1 ∧
    (processItem cl mode ds t1 u).2 = (processItem cl mode ds t2 u).2 := by
  by_cases hm : mode = "enrich" ∨ mode = "followers"
  · simp only [processItem, if_pos hm]
    cases hc : cl.userInfoByUsername u with
    | ok attrs => simp only [hc, stripScrapedAt_dictSet]; exact ⟨trivial, trivial⟩
    | error e => simp only [hc]; exact ⟨trivial, trivial⟩
  · simp only [processItem, if_neg hm]
    exact ⟨trivial, trivial⟩

theorem runLoop_modulo_clock (cl : Client) (mode : String) (ds : Bool) :
    ∀ (us : List String) (c1 c2 : Nat → DateTime),
      (runLoop cl mode ds c1 us).1.map stripScrapedAt
          = (runLoop cl mode ds c2 us).1.map stripScrapedAt ∧
      (runLoop cl mode ds c1 us).2 = (runLoop cl mode ds c2 us).2 := by
  intro us
  induction us with
  | nil => intro c1 c2; exact ⟨rfl, rfl⟩
  | cons u rest ih =>
      intro c1 c2
      have hi := processItem_modulo_clock cl mode ds (c1 0) (c2 0) u
      have ht := ih (fun m => c1 (m + 1)) (fun m => c2 (m + 1))
      simp only [runLoop, List.map_cons]
      exact ⟨by rw [hi.1, ht.1], by rw [hi.2, ht.2]⟩

theorem processItem_followers_enrich (cl : Client) (ds : Bool)
    (now : DateTime) (u : String) :
    (processItem cl "followers" ds now u).1
        = (processItem cl "enrich" ds now u).1 ∧
    (processItem cl "followers" ds now u).2.filter (fun e => !isFollowersNote e)
        = (processItem cl "enrich" ds now u).2 := by
  unfold processItem
  rw [if_pos (Or.inr rfl), if_pos (Or.inl rfl)]
  cases hc : cl.userInfoByUsername u with
  | ok attrs =>
      refine ⟨rfl, ?_⟩
      by_cases hd : ds <;> simp [hd, isFollowersNote]
  | error e => exact ⟨rfl, by simp [isFollowersNote]⟩

theorem processItem_other_mode (cl : Client) (mode : String) (ds : Bool)
    (now : DateTime) (u : String)
    (h1 : mode ≠ "enrich") (h2 : mode ≠ "followers") :
    processItem cl mode ds now u
      = ([], (if ds then [Event.push u] else []) ++ [Event.sleep2]) := by
  unfold processItem
  rw [if_neg (by simp [h1, h2])]

/-- A deterministic mock platform client: fetching `bob` raises with
message `network down`, any other username succeeds with two attributes;
authentication always succeeds. -/
def mockClient : Client where
  userInfoByUsername := fun u =>
    if u = "bob" then .error "network down"
    else .ok [("pk", .jInt 1), ("username", .jStr u)]
  loginBySessionId := fun _ => .ok ()

/-- A client whose profile fetch raises with an empty exception message
(Python `Exception()` stringifies to the empty string). -/
def emptyMsgClient : Client where
  userInfoByUsername := fun _ => .error ""
  loginBySessionId := fun _ => .ok ()

/-- A client whose authentication call raises. -/
def badAuthClient : Client where
  userInfoByUsername := fun u => .ok [("username", .jStr u)]
  loginBySessionId := fun _ => .error "login denied"

/-- A client whose returned attributes already contain a field named
`platform` with a value other than `instagram`. -/
def platformAttrClient : Client where
  userInfoByUsername := fun _ => .ok [("platform", .jStr "tiktok")]
  loginBySessionId := fun _ => .ok ()

/-- A fixed mock clock. -/
def mockClock : Nat → DateTime := fun _ => ⟨2025, 10, 12, 3, 4, 5⟩

/-- Claim C1: for every job configuration, the item-processing loop
produces exactly one record per target — the results list has the same
length as the target list, and the record at position `i` is precisely
the record the loop body produces for target number `i` (success or
failure), so the records appear in the same order as the targets. -/
theorem c1_one_record_per_target_in_order (cl : Client) (mode : String)
    (ds : Bool) (clock : Nat → DateTime) (us : List String) :
    (runLoop cl mode ds clock us).1.length = us.length ∧
    ∀ i : Nat, (runLoop cl mode ds clock us).1.get? i
      = (us.get? i).map (fun u => (processItem cl mode ds (clock i) u).1) :=
  ⟨runLoop_fst_length cl mode ds us clock,
   fun i => runLoop_fst_get? cl mode ds us clock i⟩

/-- Claim C2 counterexample: with a fetch that raises an exception whose
message is empty (Python `Exception()` stringifies to the empty string),
the failure record's `error` field is the empty string, so the record
does not carry a non-empty error string as the claim requires. -/
theorem c2_counterexample_empty_error_string :
    (runLoop emptyMsgClient "enrich" false mockClock ["alice"]).1
      = [[("username", .jStr "alice"), ("error", .jStr "")]] ∧
    dictGet [("username", JVal.jStr "alice"), ("error", JVal.jStr "")] "error"
      = some (.jStr "") :=
  ⟨rfl, rfl⟩

/-- Claim C2 (amended): for every target whose fetch raises, the failure
is caught and scoped to that single target — the record at that target's
position is exactly the two-field mapping of the target's identifier and
the raised failure's message (which the code does not guarantee to be
non-empty), and the loop still produces one record for every target, so
no later target is skipped. -/
theorem c2_failure_isolated_to_item (cl : Client) (mode : String) (ds : Bool)
    (clock : Nat → DateTime) (us : List String) (i : Nat) (u e : String)
    (hm : mode = "enrich" ∨ mode = "followers")
    (hu : us.get? i = some u)
    (hf : cl.userInfoByUsername u = .error e) :
    (runLoop cl mode ds clock us).1.get? i
        = some [("username", .jStr u), ("error", .jStr e)] ∧
    (runLoop cl mode ds clock us).1.length = us.length := by
  constructor
  · rw [runLoop_fst_get?, hu]
    simp only [Option.map_some']
    unfold processItem
    rw [if_pos hm, hf]
  · exact runLoop_fst_length cl mode ds us clock

/-- Witness for C2 at a concrete job: two targets, the first one failing. -/
theorem c2_failure_isolated_witness :
    (runLoop mockClient "enrich" false mockClock ["bob", "carol"]).1.get? 0
        = some [("username", .jStr "bob"), ("error", .jStr "network down")] ∧
    (runLoop mockClient "enrich" false mockClock ["bob", "carol"]).1.length = 2 := by
  have h := c2_failure_isolated_to_item mockClient "enrich" false mockClock
    ["bob", "carol"] 0 "bob" "network down" (Or.inl rfl) rfl rfl
  exact ⟨h.1, h.2⟩

/-- Claim C3 counterexample: one target whose fetch raises, dataset sink
configured — the iteration's whole trace is the fetch and the error
diagnostic: no push reaches the emitter and the 2-second delay never
runs, although a (failure) record was produced for the item.  So the
delay is not unconditional and does not occur after every item. -/
theorem c3_counterexample_no_delay_after_failure :
    (runLoop mockClient "enrich" true mockClock ["bob"]).1.length = 1 ∧
    (runLoop mockClient "enrich" true mockClock ["bob"]).2
      = [Event.fetch "bob", Event.errNote "bob"] ∧
    (runLoop mockClient "enrich" true mockClock ["bob"]).2.countP isSleep = 0 ∧
    (runLoop mockClient "enrich" true mockClock ["bob"]).2.countP isPush = 0 :=
  ⟨rfl, rfl, rfl, rfl⟩

/-- Claim C3 (amended): the dataset push and the 2-second delay happen
only on the non-failing path — the run contains one delay per item whose
fetch did not raise (and, when the dataset sink is configured, one push
per such item), the delay is the last action of every non-failing
iteration, and a failing iteration's trace is exactly the fetch and the
error diagnostic, with neither push nor delay. -/
theorem c3_delay_only_after_unfailed_items (cl : Client) (mode : String)
    (ds : Bool) (clock : Nat → DateTime) (us : List String) :
    ((runLoop cl mode ds clock us).2.countP isSleep
        = us.countP (fun u => !itemFails cl mode u)) ∧
    ((runLoop cl mode ds clock us).2.countP isPush
        = if ds then us.countP (fun u => !itemFails cl mode u) else 0) ∧
    (∀ u now, itemFails cl mode u = false →
        (processItem cl mode ds now u).2.getLast? = some Event.sleep2) ∧
    (∀ u now, itemFails cl mode u = true →
        (processItem cl mode ds now u).2
          = [Event.fetch u, Event.errNote u]) := by
  refine ⟨runLoop_countP_sleep cl mode ds us clock,
          runLoop_countP_push cl mode ds us clock,
          fun u now h => processItem_getLast_of_not_fail cl mode ds now u h,
          fun u now h => ?_⟩
  obtain ⟨e, _, hp⟩ := processItem_of_fail cl mode ds now u h
  rw [hp]

/-- Witness for C3 at a concrete job: of two targets the second fails, so
exactly one delay runs, and the failing iteration's trace is bare. -/
theorem c3_delay_witness :
    (runLoop mockClient "enrich" true mockClock ["alice", "bob"]).2.countP isSleep = 1 ∧
    (processItem mockClient "enrich" true (mockClock 1) "bob").2
      = [Event.fetch "bob", Event.errNote "bob"] := by
  have h := c3_delay_only_after_unfailed_items mockClient "enrich" true mockClock
    ["alice", "bob"]
  refine ⟨?_, h.2.2.2 "bob" (mockClock 1) rfl⟩
  rw [h.1]
  rfl

/-- Claim C4: `authenticate` (`login_by_sessionid`) is invoked exactly
once, as the very first action of the run (hence before any target is
processed), exactly when the resolved credential — the configuration's
`session_id` or, failing that, the `IG_SESSION_ID` environment value —
is present (non-empty, matching Python truthiness in the `or` chain);
when both sources are absent or empty the run contains no authentication
call at all; and a present configuration credential takes precedence
over the environment one. -/
theorem c4_authenticate_once_iff_credential (cl : Client) (cfg : JobConfig)
    (envS : Option String) (ds : Bool) (clock : Nat → DateTime) :
    (truthy (pyOr cfg.sessionId envS) = false →
        (runJob cl cfg envS ds clock).2.countP isAuth = 0) ∧
    (∀ s, pyOr cfg.sessionId envS = some s → s ≠ "" →
        (runJob cl cfg envS ds clock).2.countP isAuth = 1 ∧
        (runJob cl cfg envS ds clock).2.head? = some (Event.auth s)) ∧
    (truthy cfg.sessionId = true → pyOr cfg.sessionId envS = cfg.sessionId) := by
  refine ⟨?_, ?_, ?_⟩
  · intro h
    unfold runJob
    cases hp : pyOr cfg.sessionId envS with
    | none => simp [runLoop_countP_auth]
    | some s =>
        rw [hp] at h
        have hs : s = "" := by simpa [truthy] using h
        subst hs
        simp [runLoop_countP_auth]
  · intro s hs hne
    unfold runJob
    rw [hs]
    simp only [if_pos hne]
    cases hl : cl.loginBySessionId s with
    | ok _ =>
        simp [isAuth, List.countP_cons, runLoop_countP_auth]
    | error e =>
        simp [isAuth, List.countP_cons]
  · intro h
    unfold pyOr
    rw [if_pos h]

/-- Witness for C4 at a concrete job with a configuration credential. -/
theorem c4_authenticate_witness :
    (runJob mockClient ⟨["alice"], "enrich", some "XYZ"⟩ none false mockClock).2.countP isAuth = 1 ∧
    (runJob mockClient ⟨["alice"], "enrich", some "XYZ"⟩ none false mockClock).2.head?
      = some (Event.auth "XYZ") :=
  (c4_authenticate_once_iff_credential mockClient
      ⟨["alice"], "enrich", some "XYZ"⟩ none false mockClock).2.1
    "XYZ" rfl (by decide)

/-- Claim C5 counterexample: a client whose returned attributes already
contain a `platform` field valued `tiktok`.  The produced record's
`platform` field is `instagram` — the injected field overwrote the
returned attribute — so the record does not contain all of the client's
returned attributes. -/
theorem c5_counterexample_platform_attribute_overwritten :
    (processItem platformAttrClient "enrich" false (mockClock 0) "alice").1
      = [("platform", .jStr "instagram"),
         ("scrapedAt", .jStr "2025-10-12T03:04:05Z")] ∧
    dictGet [("platform", JVal.jStr "tiktok")] "platform"
      = some (.jStr "tiktok") ∧
    dictGet (processItem platformAttrClient "enrich" false (mockClock 0) "alice").1 "platform"
      ≠ some (.jStr "tiktok") := by
  refine ⟨rfl, rfl, ?_⟩
  intro h
  rw [show dictGet (processItem platformAttrClient "enrich" false (mockClock 0) "alice").1 "platform"
        = some (JVal.jStr "instagram") from rfl] at h
  injection h with h1
  injection h1 with h2
  exact absurd h2 (by decide)

/-- Claim C5 (amended): for every target whose fetch succeeds, the record
is the returned attribute mapping with `platform = "instagram"` and a
`scrapedAt` UTC timestamp of the shape `YYYY-MM-DDTHH:MM:SSZ` written
into it — every returned attribute under any other name is preserved
unchanged, while returned attributes named `platform` or `scrapedAt` are
overwritten by the injected fields. -/
theorem c5_success_record_normalized (cl : Client) (mode : String) (ds : Bool)
    (now : DateTime) (u : String) (attrs : Record)
    (hm : mode = "enrich" ∨ mode = "followers")
    (hf : cl.userInfoByUsername u = .ok attrs)
    (hv : now.valid = true) :
    dictGet (processItem cl mode ds now u).1 "platform"
        = some (.jStr "instagram") ∧
    dictGet (processItem cl mode ds now u).1 "scrapedAt"
        = some (.jStr (formatTimestamp now)) ∧
    matchesTimestampPattern (formatTimestamp now) = true ∧
    (∀ k, k ≠ "platform" → k ≠ "scrapedAt" →
        dictGet (processItem cl mode ds now u).1 k = dictGet attrs k) := by
  have hrec : (processItem cl mode ds now u).1
      = dictSet (dictSet attrs "platform" (.jStr "instagram")) "scrapedAt"
          (.jStr (formatTimestamp now)) := by
    unfold processItem
    rw [if_pos hm, hf]
  refine ⟨?_, ?_, formatTimestamp_matches now hv, ?_⟩
  · rw [hrec, dictGet_dictSet_ne _ _ _ _ (by decide), dictGet_dictSet_self]
  · rw [hrec, dictGet_dictSet_self]
  · intro k hk1 hk2
    rw [hrec, dictGet_dictSet_ne _ _ _ _ hk2, dictGet_dictSet_ne _ _ _ _ hk1]

/-- Witness for C5 at a concrete successful fetch. -/
theorem c5_success_record_witness :
    dictGet (processItem mockClient "enrich" false (mockClock 0) "alice").1 "platform"
        = some (.jStr "instagram") ∧
    dictGet (processItem mockClient "enrich" false (mockClock 0) "alice").1 "scrapedAt"
        = some (.jStr "2025-10-12T03:04:05Z") ∧
    matchesTimestampPattern "2025-10-12T03:04:05Z" = true ∧
    dictGet (processItem mockClient "enrich" false (mockClock 0) "alice").1 "pk"
        = some (.jInt 1) := by
  have h := c5_success_record_normalized mockClient "enrich" false (mockClock 0)
    "alice" [("pk", .jInt 1), ("username", .jStr "alice")] (Or.inl rfl) rfl rfl
  exact ⟨h.1, h.2.1, h.2.2.1, h.2.2.2 "pk" (by decide) (by decide)⟩

/-- Claim C6: configuration resolution uses the local input file when it
exists (even when the environment string is also set), otherwise the
environment-supplied configuration string (when set and non-empty),
otherwise the empty input; a parse failure of either source is caught —
the resolver still returns, flags the diagnostic, and yields the empty
input, from which the extracted configuration has an empty target list,
mode `enrich` and no credential. -/
theorem c6_config_resolution_precedence_and_fallback
    (parse : String → Except String JVal) (fileC envC : Option String) :
    (∀ c v, fileC = some c → parse c = .ok v →
        resolveActorInput parse fileC envC = (v, false)) ∧
    (∀ c e, fileC = some c → parse c = .error e →
        resolveActorInput parse fileC envC = (JVal.jObj [], true)) ∧
    (∀ s v, fileC = none → envC = some s → s ≠ "" → parse s = .ok v →
        resolveActorInput parse fileC envC = (v, false)) ∧
    (∀ s e, fileC = none → envC = some s → s ≠ "" → parse s = .error e →
        resolveActorInput parse fileC envC = (JVal.jObj [], true)) ∧
    (fileC = none → (envC = none ∨ envC = some "") →
        resolveActorInput parse fileC envC = (JVal.jObj [], false)) ∧
    extractConfig (JVal.jObj []) = ⟨[], "enrich", none⟩ := by
  refine ⟨?_, ?_, ?_, ?_, ?_, rfl⟩
  · intro c v hfc hp
    subst hfc
    simp [resolveActorInput, hp]
  · intro c e hfc hp
    subst hfc
    simp [resolveActorInput, hp]
  · intro s v hfc hec hne hp
    subst hfc; subst hec
    simp [resolveActorInput, hne, hp]
  · intro s e hfc hec hne hp
    subst hfc; subst hec
    simp [resolveActorInput, hne, hp]
  · intro hfc hec
    subst hfc
    rcases hec with h | h <;> subst h <;> rfl

/-- Witness for C6: a file that exists but fails to parse yields the
empty input with the diagnostic flag, and the empty input extracts to
the empty configuration. -/
theorem c6_config_witness :
    resolveActorInput (fun _ => Except.error "bad input") (some "FILE") (some "ENV")
      = (JVal.jObj [], true) ∧
    extractConfig (JVal.jObj []) = ⟨[], "enrich", none⟩ := by
  have h := c6_config_resolution_precedence_and_fallback
    (fun _ => Except.error "bad input") (some "FILE") (some "ENV")
  exact ⟨h.2.1 "FILE" "bad input" rfl rfl, h.2.2.2.2.2⟩

/-- Claim C7: when a (truthy) credential is present and the
authentication call raises, the error is not caught: the job aborts with
that error, its whole trace is the single authentication event — no
fetch happened, no delay ran — and no record is produced for any
target. -/
theorem c7_auth_failure_fatal_before_items (cl : Client) (cfg : JobConfig)
    (envS : Option String) (ds : Bool) (clock : Nat → DateTime) (s e : String)
    (hs : pyOr cfg.sessionId envS = some s) (hne : s ≠ "")
    (hl : cl.loginBySessionId s = .error e) :
    runJob cl cfg envS ds clock = (.error e, [Event.auth s]) := by
  unfold runJob
  rw [hs]
  simp only [if_pos hne, hl]

/-- Witness for C7 at a concrete job whose login is rejected. -/
theorem c7_auth_failure_witness :
    runJob badAuthClient ⟨["alice"], "enrich", some "XYZ"⟩ none false mockClock
      = (.error "login denied", [Event.auth "XYZ"]) :=
  c7_auth_failure_fatal_before_items badAuthClient
    ⟨["alice"], "enrich", some "XYZ"⟩ none false mockClock "XYZ" "login denied"
    rfl (by decide) rfl

/-- Claim C8: the whole pipeline is deterministic modulo the clock — two
runs of the job with the same configuration, environment credential,
dataset setting and (pure, hence deterministic) platform client, but
arbitrary clocks, produce the same outcome and the same event trace,
and record for record the results agree on every field once the
`scrapedAt` timestamp is deleted. -/
theorem c8_two_runs_identical_modulo_scrapedAt (cl : Client) (cfg : JobConfig)
    (envS : Option String) (ds : Bool) (c1 c2 : Nat → DateTime) :
    Except.map (fun rs => rs.map stripScrapedAt) (runJob cl cfg envS ds c1).1
      = Except.map (fun rs => rs.map stripScrapedAt) (runJob cl cfg envS ds c2).1 ∧
    (runJob cl cfg envS ds c1).2 = (runJob cl cfg envS ds c2).2 := by
  have h := runLoop_modulo_clock cl cfg.mode ds cfg.targets c1 c2
  unfold runJob
  cases pyOr cfg.sessionId envS with
  | none => exact ⟨by simp [Except.map, h.1], h.2⟩
  | some s =>
      by_cases hne : s ≠ ""
      · simp only [if_pos hne]
        cases cl.loginBySessionId s with
        | ok _ => exact ⟨by simp [Except.map, h.1], by simp [h.2]⟩
        | error e => exact ⟨rfl, rfl⟩
      · simp only [if_neg hne]
        exact ⟨by simp [Except.map, h.1], h.2⟩

/-- Claim C9: for every platform client, dataset setting, clock and
target list, `followers` mode produces exactly the same records as
`enrich` mode — the (disabled) follower sub-step contributes no data to
any record — and the two runs' traces agree once the follower
diagnostic events are dropped. -/
theorem c9_followers_records_equal_enrich (cl : Client) (ds : Bool)
    (clock : Nat → DateTime) (us : List String) :
    (runLoop cl "followers" ds clock us).1
        = (runLoop cl "enrich" ds clock us).1 ∧
    (runLoop cl "followers" ds clock us).2.filter (fun e => !isFollowersNote e)
        = (runLoop cl "enrich" ds clock us).2 := by
  induction us generalizing clock with
  | nil => exact ⟨rfl, rfl⟩
  | cons u rest ih =>
      have hi := processItem_followers_enrich cl ds (clock 0) u
      have ht := ih (fun m => clock (m + 1))
      simp only [runLoop, List.filter_append]
      exact ⟨by rw [hi.1, ht.1], by rw [hi.2, ht.2]⟩

/-- Claim C10: in any mode other than `enrich` and `followers` the
profile fetch is never invoked — the run's trace contains no fetch
event — and every target still yields one record, the empty mapping
(so no identifier, no platform field and no error field). -/
theorem c10_other_modes_empty_records_no_fetch (cl : Client) (mode : String)
    (ds : Bool) (clock : Nat → DateTime) (us : List String)
    (h1 : mode ≠ "enrich") (h2 : mode ≠ "followers") :
    (runLoop cl mode ds clock us).1 = List.replicate us.length [] ∧
    (runLoop cl mode ds clock us).2.countP isFetch = 0 := by
  induction us generalizing clock with
  | nil => exact ⟨rfl, rfl⟩
  | cons u rest ih =>
      have hp := processItem_other_mode cl mode ds (clock 0) u h1 h2
      have ht := ih (fun m => clock (m + 1))
      constructor
      · simp [runLoop, hp, ht.1, List.replicate_succ]
      · simp only [runLoop, List.countP_append, hp, ht.2]
        by_cases hd : ds <;>
          simp [hd, isFetch, List.countP_cons, List.countP_append]

/-- Witness for C10 at a concrete job in an unknown mode. -/
theorem c10_other_mode_witness :
    (runLoop mockClient "export" true mockClock ["alice", "bob"]).1 = [[], []] ∧
    (runLoop mockClient "export" true mockClock ["alice", "bob"]).2.countP isFetch = 0 := by
  have h := c10_other_modes_empty_records_no_fetch mockClient "export" true
    mockClock ["alice", "bob"] (by decide) (by decide)
  exact ⟨h.1, h.2⟩
